import Mathlib

/- A verification development for the douyin-extractor service (src/app.py).

Python strings are modelled as lists of Unicode code points (List Nat).
The functions str.find, str.rfind and slicing are modelled with Python's
exact index conventions: negative indices count from the end of the string
and the value -1 marks an unsuccessful search.  json.loads applied to a
quoted fragment is modelled by jsonDec.  Exceptions swallowed by the broad
handlers of the source appear as Option results or as Call.exn outcomes of
the external calls. -/

/-- Code points of a string literal. -/
def lit (s : String) : List Nat := s.data.map Char.toNat

/-- The sentinel returned by the extractors (src/app.py lines 24, 27, 34, 48). -/
def unknownStr : List Nat := lit "Unknown"

/-- `matches_at t sub i` holds when `sub` occurs in `t` at index `i`
(Python's `t[i:i+len(sub)] == sub`, with `i` inside the string). -/
def matches_at (t sub : List Nat) (i : Nat) : Bool :=
  decide (i ≤ t.length) && ((t.drop i).take sub.length == sub)

/-- Propositional version of `matches_at`. -/
def occursAt (t sub : List Nat) (i : Nat) : Prop :=
  i ≤ t.length ∧ (t.drop i).take sub.length = sub

instance (t sub : List Nat) (i : Nat) : Decidable (occursAt t sub i) := by
  unfold occursAt; infer_instance

/-- Scan upward from `s`, `fuel` positions, for the first index satisfying `p`. -/
def find_aux (p : Nat → Bool) : Nat → Nat → Option Nat
  | _, 0 => none
  | i, fuel + 1 => if p i then some i else find_aux p (i + 1) fuel

/-- First occurrence of `sub` in `t` at an index `≥ s` (Python `t.find(sub, s)`
for a non-negative start). -/
def py_find_nat (t sub : List Nat) (s : Nat) : Option Nat :=
  find_aux (matches_at t sub) s (t.length + 1 - s)

/-- Python's normalisation of a (possibly negative) search start index. -/
def py_norm_start (len : Nat) (s : Int) : Nat :=
  if s < 0 then len - min len (-s).toNat else s.toNat

/-- Python `t.find(sub, s)`: first occurrence index, or -1. -/
def py_find (t sub : List Nat) (s : Int) : Int :=
  match py_find_nat t sub (py_norm_start t.length s) with
  | some i => (i : Int)
  | none => -1

/-- Scan downward from `n` for the greatest index satisfying `p`. -/
def rfind_aux (p : Nat → Bool) : Nat → Option Nat
  | 0 => if p 0 then some 0 else none
  | n + 1 => if p (n + 1) then some (n + 1) else rfind_aux p n

/-- Python's normalisation of a slice bound: negative counts from the end,
then the result is clamped to `[0, len]`. -/
def py_slice_norm (len : Nat) (x : Int) : Nat :=
  if x < 0 then len - min len (-x).toNat else min x.toNat len

/-- Python `t.rfind(sub, 0, stop)`: greatest index of an occurrence of `sub`
that fits before the normalised `stop`, or -1. -/
def py_rfind (t sub : List Nat) (stop : Int) : Int :=
  match rfind_aux
      (fun i => matches_at t sub i &&
        decide (i + sub.length ≤ py_slice_norm t.length stop))
      t.length with
  | some i => (i : Int)
  | none => -1

/-- Python slice `t[i:j]` with full index normalisation. -/
def py_slice (t : List Nat) (i j : Int) : List Nat :=
  (t.take (py_slice_norm t.length j)).drop (py_slice_norm t.length i)

/-- Python's `str.isspace` set of code points, as used by `str.strip()`. -/
def is_py_space (c : Nat) : Bool :=
  (0x09 ≤ c && c ≤ 0x0D) || (0x1C ≤ c && c ≤ 0x1F) || c == 0x20 || c == 0x85 ||
  c == 0xA0 || c == 0x1680 || (0x2000 ≤ c && c ≤ 0x200A) || c == 0x2028 ||
  c == 0x2029 || c == 0x202F || c == 0x205F || c == 0x3000

/-- Drop every leading and trailing code point satisfying `p`
(Python `str.strip` with a character class). -/
def stripBy (p : Nat → Bool) (l : List Nat) : List Nat :=
  (((l.dropWhile p).reverse.dropWhile p)).reverse

/-- Python `str.strip()` (no argument): strip whitespace at both ends. -/
def strip_ws : List Nat → List Nat := stripBy is_py_space

/-- Python `str.strip('"')`: strip every leading and trailing double quote. -/
def strip_quotes : List Nat → List Nat := stripBy (fun c => c == 0x22)

/-- Value of a hexadecimal digit, if any. -/
def hexDigit? (c : Nat) : Option Nat :=
  if 0x30 ≤ c ∧ c ≤ 0x39 then some (c - 0x30)
  else if 0x41 ≤ c ∧ c ≤ 0x46 then some (c - 0x37)
  else if 0x61 ≤ c ∧ c ≤ 0x66 then some (c - 0x57)
  else none

/-- Value of four hexadecimal digits, if all are valid. -/
def hex4? (a b c d : Nat) : Option Nat :=
  match hexDigit? a, hexDigit? b, hexDigit? c, hexDigit? d with
  | some x, some y, some z, some w => some (((x * 16 + y) * 16 + z) * 16 + w)
  | _, _, _, _ => none

/-- The single-character JSON escapes. -/
def escChar? (e : Nat) : Option Nat :=
  if e = 0x22 then some 0x22
  else if e = 0x5C then some 0x5C
  else if e = 0x2F then some 0x2F
  else if e = 0x62 then some 8
  else if e = 0x66 then some 12
  else if e = 0x6E then some 10
  else if e = 0x72 then some 13
  else if e = 0x74 then some 9
  else none

/-- CPython's `json.loads` applied to `'"' + raw + '"'`, i.e. decoding `raw`
as the body of a JSON string literal.  `none` models the JSONDecodeError
raised by an embedded unescaped quote (which ends the literal early and
leaves extra data), an unescaped control character below 0x20, an invalid
escape, a truncated or non-hexadecimal `\uXXXX` escape, or a high surrogate
followed by a malformed `\uXXXX` escape.  Surrogate pairs are combined;
lone surrogates are kept, exactly as in CPython's scanner. -/
def jsonDecF : Nat → List Nat → Option (List Nat)
  | 0, _ => none
  | _ + 1, [] => some []
  | fuel + 1, 0x5C :: 0x75 :: a :: b :: c :: d :: rest =>
    match hex4? a b c d with
    | none => none
    | some v =>
      if 0xD800 ≤ v ∧ v ≤ 0xDBFF then
        match rest with
        | 0x5C :: 0x75 :: rest2 =>
          match rest2 with
          | a2 :: b2 :: c2 :: d2 :: rest3 =>
            match hex4? a2 b2 c2 d2 with
            | none => none
            | some v2 =>
              if 0xDC00 ≤ v2 ∧ v2 ≤ 0xDFFF then
                (jsonDecF fuel rest3).map
                  (fun l => (0x10000 + (v - 0xD800) * 0x400 + (v2 - 0xDC00)) :: l)
              else
                (jsonDecF fuel (0x5C :: 0x75 :: a2 :: b2 :: c2 :: d2 :: rest3)).map
                  (fun l => v :: l)
          | _ => none
        | _ => (jsonDecF fuel rest).map (fun l => v :: l)
      else (jsonDecF fuel rest).map (fun l => v :: l)
  | fuel + 1, 0x5C :: e :: rest =>
    match escChar? e with
    | some ch => (jsonDecF fuel rest).map (fun l => ch :: l)
    | none => none
  | _ + 1, 0x5C :: [] => none
  | fuel + 1, ch :: rest =>
    if ch = 0x22 ∨ ch < 0x20 then none else (jsonDecF fuel rest).map (fun l => ch :: l)

/-- Decode `raw` with enough fuel: every step of `jsonDecF` consumes at least
one code point, so `raw.length + 1` steps never run out. -/
def jsonDec (raw : List Nat) : Option (List Nat) := jsonDecF (raw.length + 1) raw

/-- src/app.py lines 16-27, `extract_value`: find the start marker, find the
end marker from the start of that match, and slice between them; any failed
search yields the sentinel.  The Python body cannot raise, so the
`except` branch of the source is dead and the model is a total function. -/
def extract_value (t sm em : List Nat) : List Nat :=
  let si := py_find t sm 0
  let ei := py_find t em si
  if si ≠ -1 ∧ ei ≠ -1 then py_slice t (si + (sm.length : Int)) ei else unknownStr

/-- The anchor token of src/app.py line 32. -/
def anchor_tok : List Nat := lit "mime_type=audio_mp4"

/-- src/app.py lines 36-39: the candidate span for the track URL, sliced from
just after the last `:` before the anchor up to the first `,` at or after
the anchor (each bound is -1 when the scan fails). -/
def track_url_span (t : List Nat) (mi : Int) : List Nat :=
  py_slice t (py_rfind t (lit ":") mi + 1) (py_find t (lit ",") mi)

/-- src/app.py lines 30-48, `extract_track_url`: locate the anchor, slice the
candidate span, strip whitespace and quotes, JSON-decode, and prefix
protocol-relative URLs with `https:`.  The JSONDecodeError raised by
`json.loads` is caught by the handler at line 46 and becomes the sentinel. -/
def extract_track_url (t : List Nat) : List Nat :=
  let mi := py_find t anchor_tok 0
  if mi = -1 then unknownStr
  else
    match jsonDec (strip_quotes (strip_ws (track_url_span t mi))) with
    | none => unknownStr
    | some u => if u.take 2 == lit "//" then lit "https:" ++ u else u

/-- The descriptor assembled by src/app.py line 66. -/
structure TrackData where
  track_name : List Nat
  artist_name : List Nat
  cover_url : List Nat
  track_url : List Nat
deriving DecidableEq, Repr

/-- Marker before the track name (src/app.py line 53). -/
def tn_start : List Nat := lit "\"trackName\":\""

/-- Marker closing each extracted field (src/app.py lines 53, 56, 59). -/
def field_end : List Nat := lit "\",\""

/-- Marker before the artist name (src/app.py line 56). -/
def an_start : List Nat := lit "\"artistName\":\""

/-- Marker before the cover URL (src/app.py line 59). -/
def cu_start : List Nat := lit "\"coverURL\":\""

/-- src/app.py lines 51-69, `extract_and_log_data`: extract the three marker
fields, JSON-decode the cover URL, then resolve the track URL.  The only
statement inside the `try` block that can raise is the `json.loads` call of
line 60; when it raises, the handler at line 67 returns the empty dict,
modelled as `none`.  `extract_track_url` runs only after a successful
decode, matching the statement order of the source. -/
def extract_and_log_data (t : List Nat) : Option TrackData :=
  let tn := extract_value t tn_start field_end
  let an := extract_value t an_start field_end
  let cu := extract_value t cu_start field_end
  match jsonDec cu with
  | none => none
  | some cu2 => some ⟨tn, an, cu2, extract_track_url t⟩

/-- A value stored in one MP4 metadata atom: a list of text values, a list
of cover images `(bytes, imageformat)`, or an uninterpreted payload. -/
inductive MP4Item where
  | strs : List (List Nat) → MP4Item
  | covers : List (List Nat × Nat) → MP4Item
  | blob : List Nat → MP4Item
deriving DecidableEq, Repr

/-- Modelled from the spec: mutagen's `MP4` object behaves as a dictionary
from atom keys to atom values; saving and re-parsing the container
preserves this dictionary ("contains correct tag atoms when re-parsed").
The byte-level box layout is not modelled. -/
abbrev MP4Tags := List (List Nat × MP4Item)

/-- Dictionary update: replace the value stored under `k`, or append it. -/
def setAtom : MP4Tags → List Nat → MP4Item → MP4Tags
  | [], k, v => [(k, v)]
  | (k', v') :: rest, k, v =>
    if k' = k then (k, v) :: rest else (k', v') :: setAtom rest k v

/-- Dictionary lookup. -/
def getAtom : MP4Tags → List Nat → Option MP4Item
  | [], _ => none
  | (k', v') :: rest, k => if k' = k then some v' else getAtom rest k

/-- Key of the title atom `©nam` (src/app.py line 125). -/
def atom_nam : List Nat := 0xA9 :: lit "nam"

/-- Key of the artist atom `©ART` (src/app.py line 126). -/
def atom_art : List Nat := 0xA9 :: lit "ART"

/-- Key of the cover-art atom (src/app.py line 127). -/
def atom_covr : List Nat := lit "covr"

/-- mutagen's `MP4Cover.FORMAT_JPEG`. -/
def format_jpeg : Nat := 13

/-- src/app.py lines 125-128: set the title atom to the track name, the
artist atom to the artist name, and the cover atom to a single JPEG-typed
image built from the downloaded cover bytes. -/
def apply_metadata (tags : MP4Tags) (trackName artistName coverBytes : List Nat) :
    MP4Tags :=
  setAtom
    (setAtom (setAtom tags atom_nam (MP4Item.strs [trackName]))
      atom_art (MP4Item.strs [artistName]))
    atom_covr (MP4Item.covers [(coverBytes, format_jpeg)])

/-- An HTTP response as observed by src/app.py: status code, optional
Content-Type header, and body bytes. -/
structure HttpResponse where
  status : Nat
  contentType : Option (List Nat)
  body : List Nat
deriving DecidableEq, Repr

/-- Outcome of an external call: a value, or a raised exception. -/
inductive Call (α : Type) where
  | ok : α → Call α
  | exn : Call α
deriving DecidableEq, Repr

/-- The environment of one `download_and_set_metadata` run: the audio GET,
the cover GET, the `MP4(...)` parse of the audio bytes (whose exception is
caught by the inner handler at src/app.py lines 118-123), and `audio.save()`. -/
structure DlEnv where
  audio : Call HttpResponse
  cover : Call HttpResponse
  parse : Call MP4Tags
  save : Call Unit
deriving DecidableEq, Repr

/-- Observable outcome of `download_and_set_metadata`: the returned value
(`none` models the `(None, None)` failure returns), whether the temporary
audio file was created (src/app.py line 104), and whether it had been
deleted by `os.unlink` when the function returned. -/
structure DlOutcome where
  result : Option (MP4Tags × List Nat)
  tempCreated : Bool
  tempDeleted : Bool
deriving DecidableEq, Repr

/-- src/app.py lines 96-97: the Content-Type check
`"audio/mp4" not in content_type and "video/mp4" not in content_type`
fails the download; `ct_ok` is the accepting condition. -/
def ct_ok (ct : List Nat) : Bool :=
  decide (py_find ct (lit "audio/mp4") 0 ≠ -1) ||
  decide (py_find ct (lit "video/mp4") 0 ≠ -1)

/-- src/app.py lines 79-142, `download_and_set_metadata`.  Statuses other
than 200 and unexpected content types fail before the temporary file
exists.  After the file is created: a non-200 cover response and a failed
container parse both `os.unlink` it (lines 113, 122); an exception raised
by the cover GET (line 110) or by `audio.save()` (line 128) is caught by
the broad handler at line 140, which returns without deleting the file. -/
def download_and_set_metadata (td : TrackData) (env : DlEnv) : DlOutcome :=
  match env.audio with
  | Call.exn => ⟨none, false, false⟩
  | Call.ok r =>
    if r.status ≠ 200 then ⟨none, false, false⟩
    else if ct_ok (r.contentType.getD []) = false then ⟨none, false, false⟩
    else
      match env.cover with
      | Call.exn => ⟨none, true, false⟩
      | Call.ok c =>
        if c.status ≠ 200 then ⟨none, true, true⟩
        else
          match env.parse with
          | Call.exn => ⟨none, true, true⟩
          | Call.ok tags =>
            let tagged := apply_metadata tags td.track_name td.artist_name c.body
            match env.save with
            | Call.exn => ⟨none, true, false⟩
            | Call.ok _ =>
              ⟨some (tagged, td.track_name ++ lit " - " ++ td.artist_name ++ lit ".m4a"),
                true, true⟩


/-- Following the specification's wording for the trim step of
src/app.py line 39: remove surrounding whitespace and then exactly ONE
pair of enclosing double-quote characters, keeping any further quotes. -/
def trim_one_pair (l : List Nat) : List Nat :=
  if l.head? = some 0x22 ∧ l.getLast? = some 0x22 ∧ 2 ≤ l.length
  then (l.drop 1).dropLast else l

/-- A page text whose cover-URL span holds the invalid escape
backslash-q while the name fields resolve normally. -/
def c1_page_text : List Nat :=
  lit "\"trackName\":\"Song\",\"artistName\":\"Artist\",\"coverURL\":\"a\\qb\",\""

/-- A page text on which every field of the descriptor resolves. -/
def c1_good_text : List Nat :=
  lit "\"trackName\":\"Song\",\"artistName\":\"Artist\",\"coverURL\":\"http\",\""

/-- A text of exactly the shape displayed by the claim about the
Track-URL Resolver: the URL delimited by a colon and a comma, with the
anchor occurring later in the text. -/
def c4_claim_text : List Nat :=
  lit "x\":\"//example.cdn/a.mp4\",ymime_type=audio_mp4,z"

/-- The shape the code actually handles: the anchor is a query parameter
inside the quoted protocol-relative URL. -/
def c4_core : List Nat :=
  lit "\":\"//example.cdn/a.mp4?mime_type=audio_mp4\","

/-- A resolved descriptor whose cover URL is the sentinel, as produced by
the extractor pipeline when the cover field is missing. -/
def sample_track_data : TrackData :=
  ⟨lit "Song", lit "Artist", lit "Unknown", lit "https://cdn/a.m4a"⟩

/-- Environment: the audio GET succeeds with 200/audio-mp4 and the cover
GET raises (`requests.get("Unknown")` raises MissingSchema). -/
def env_cover_raises : DlEnv :=
  ⟨Call.ok ⟨200, some (lit "audio/mp4"), lit "AUDIO"⟩, Call.exn,
    Call.ok [], Call.ok ()⟩

/-- Environment: the audio GET answers 206 Partial Content with
Content-Type audio/mp4. -/
def env_status_206 : DlEnv :=
  ⟨Call.ok ⟨206, some (lit "audio/mp4"), lit "AUDIO"⟩,
    Call.ok ⟨200, none, lit "JPG"⟩, Call.ok [], Call.ok ()⟩

/-- Environment: the audio GET answers 200 with Content-Type video/mp4. -/
def env_status_200 : DlEnv :=
  ⟨Call.ok ⟨200, some (lit "video/mp4"), lit "AUDIO"⟩, Call.exn,
    Call.ok [], Call.ok ()⟩

/-- A container that already holds one unrelated atom. -/
def sample_tags : MP4Tags := [(lit "trkn", MP4Item.blob (lit "01"))]

/- ## Theorems -/

theorem matches_at_iff (t sub : List Nat) (i : Nat) :
    matches_at t sub i = true ↔ occursAt t sub i := by
  simp [matches_at, occursAt]

/- ### Correctness of the search and slice primitives -/

theorem find_aux_eq_some (p : Nat → Bool) :
    ∀ (fuel s j : Nat), p j = true → s ≤ j → j < s + fuel →
      (∀ k, k < j → s ≤ k → p k = false) →
      find_aux p s fuel = some j := by
  intro fuel
  induction fuel with
  | zero => intro s j _ _ hlt _; omega
  | succ n ih =>
    intro s j hp hsj hlt hmin
    cases hs : p s with
    | true =>
      have hsj2 : s = j := by
        by_contra hne
        have hlt2 : s < j := by omega
        have hf := hmin s hlt2 (Nat.le_refl s)
        rw [hs] at hf
        exact Bool.noConfusion hf
      subst hsj2
      simp [find_aux, hs]
    | false =>
      have hne : s ≠ j := by
        intro he
        rw [he, hp] at hs
        exact Bool.noConfusion hs
      simp only [find_aux, hs, Bool.false_eq_true, if_false]
      exact ih (s + 1) j hp (by omega) (by omega)
        (fun k hk hsk => hmin k hk (by omega))

theorem find_aux_eq_none (p : Nat → Bool) :
    ∀ (fuel s : Nat), (∀ k, s ≤ k → k < s + fuel → p k = false) →
      find_aux p s fuel = none := by
  intro fuel
  induction fuel with
  | zero => intro s _; rfl
  | succ n ih =>
    intro s h
    have hs : p s = false := h s (Nat.le_refl s) (by omega)
    simp only [find_aux, hs, Bool.false_eq_true, if_false]
    exact ih (s + 1) (fun k h1 h2 => h k (by omega) (by omega))

theorem rfind_aux_eq_some (p : Nat → Bool) :
    ∀ (n j : Nat), p j = true → j ≤ n → (∀ k, j < k → k ≤ n → p k = false) →
      rfind_aux p n = some j := by
  intro n
  induction n with
  | zero =>
    intro j hp hj _
    have : j = 0 := by omega
    subst this
    simp [rfind_aux, hp]
  | succ n ih =>
    intro j hp hj hmax
    by_cases hje : j = n + 1
    · subst hje; simp [rfind_aux, hp]
    · have hf : p (n + 1) = false := hmax (n + 1) (by omega) (Nat.le_refl _)
      simp only [rfind_aux, hf, Bool.false_eq_true, if_false]
      exact ih j hp (by omega) (fun k h1 h2 => hmax k h1 (by omega))

theorem py_find_eq_coe (t sub : List Nat) (s j : Nat)
    (hj : occursAt t sub j) (hsj : s ≤ j)
    (hmin : ∀ k, k < j → s ≤ k → ¬ occursAt t sub k) :
    py_find t sub (s : Int) = (j : Int) := by
  have hnorm : py_norm_start t.length (s : Int) = s := by
    unfold py_norm_start
    rw [if_neg (by omega : ¬ ((s : Int) < 0))]
    simp
  have hfind : py_find_nat t sub s = some j := by
    unfold py_find_nat
    apply find_aux_eq_some
    · exact (matches_at_iff t sub j).mpr hj
    · exact hsj
    · have := hj.1; omega
    · intro k hk hsk
      cases hm : matches_at t sub k with
      | false => rfl
      | true => exact absurd ((matches_at_iff t sub k).mp hm) (hmin k hk hsk)
  unfold py_find
  rw [hnorm, hfind]

theorem py_find_eq_neg_one (t sub : List Nat) (s : Nat)
    (h : ∀ k, s ≤ k → ¬ occursAt t sub k) :
    py_find t sub (s : Int) = -1 := by
  have hnorm : py_norm_start t.length (s : Int) = s := by
    unfold py_norm_start
    rw [if_neg (by omega : ¬ ((s : Int) < 0))]
    simp
  have hfind : py_find_nat t sub s = none := by
    unfold py_find_nat
    apply find_aux_eq_none
    intro k h1 _
    cases hm : matches_at t sub k with
    | false => rfl
    | true => exact absurd ((matches_at_iff t sub k).mp hm) (h k h1)
  unfold py_find
  rw [hnorm, hfind]

theorem py_rfind_eq_coe (t sub : List Nat) (stop j : Nat)
    (hstop : stop ≤ t.length)
    (hj : occursAt t sub j) (hfit : j + sub.length ≤ stop)
    (hmax : ∀ k, j < k → k + sub.length ≤ stop → ¬ occursAt t sub k) :
    py_rfind t sub (stop : Int) = (j : Int) := by
  have hnorm : py_slice_norm t.length (stop : Int) = stop := by
    unfold py_slice_norm
    rw [if_neg (by omega : ¬ ((stop : Int) < 0))]
    simp
    omega
  have hr : rfind_aux
      (fun i => matches_at t sub i &&
        decide (i + sub.length ≤ py_slice_norm t.length (stop : Int)))
      t.length = some j := by
    apply rfind_aux_eq_some
    · rw [hnorm]
      simp [(matches_at_iff t sub j).mpr hj, hfit]
    · have := hj.1; omega
    · intro k h1 h2
      rw [hnorm]
      cases hm : matches_at t sub k with
      | false => simp [hm]
      | true =>
        have hk2 : ¬ (k + sub.length ≤ stop) :=
          fun hfit2 => hmax k h1 hfit2 ((matches_at_iff t sub k).mp hm)
        simp [hm, hk2]
  unfold py_rfind
  rw [hr]

theorem take_ge_length (l : List Nat) (n : Nat) (h : l.length ≤ n) :
    l.take n = l := by
  induction l generalizing n with
  | nil => simp
  | cons a t ih =>
    cases n with
    | zero => simp at h
    | succ n => simpa using ih n (by simpa using h)

theorem py_slice_coe (t : List Nat) (a b : Nat) :
    py_slice t (a : Int) (b : Int) = (t.take b).drop a := by
  have h1 : py_slice_norm t.length (a : Int) = min a t.length := by
    unfold py_slice_norm
    rw [if_neg (by omega : ¬ ((a : Int) < 0))]
    simp
  have h2 : py_slice_norm t.length (b : Int) = min b t.length := by
    unfold py_slice_norm
    rw [if_neg (by omega : ¬ ((b : Int) < 0))]
    simp
  unfold py_slice
  rw [h1, h2]
  have htake : t.take (min b t.length) = t.take b := by
    rcases Nat.le_total b t.length with h | h
    · rw [Nat.min_eq_left h]
    · rw [Nat.min_eq_right h, List.take_length, take_ge_length t b h]
  rw [htake]
  rcases Nat.le_total a t.length with h | h
  · rw [Nat.min_eq_left h]
  · rw [Nat.min_eq_right h]
    have hlen : (t.take b).length ≤ t.length := by
      simp [List.length_take]
    rw [List.drop_eq_nil_of_le hlen, List.drop_eq_nil_of_le (le_trans hlen h)]

theorem take_drop_swap (l : List Nat) (m n : Nat) :
    (l.take n).drop m = (l.drop m).take (n - m) := by
  induction l generalizing m n with
  | nil => simp
  | cons a t ih =>
    cases n with
    | zero => simp
    | succ n =>
      cases m with
      | zero => simp
      | succ m => simpa using ih m n

theorem dropLast_eq_take_len (l : List Nat) :
    l.dropLast = l.take (l.length - 1) := by
  induction l with
  | nil => rfl
  | cons a t ih =>
    cases t with
    | nil => rfl
    | cons b m =>
      simp only [List.dropLast_cons₂, List.length_cons, Nat.add_sub_cancel,
        List.take_succ_cons, ih]

theorem py_slice_neg_one (t : List Nat) (s : Int) :
    py_slice t s (-1) = (py_slice t s (t.length : Int)).dropLast := by
  unfold py_slice
  have h1 : py_slice_norm t.length (-1) = t.length - 1 := by
    unfold py_slice_norm
    rw [if_pos (by omega : (-1 : Int) < 0)]
    have hx : ((-(-1 : Int)).toNat) = 1 := by decide
    rw [hx]
    rcases Nat.le_total t.length 1 with h | h
    · rw [Nat.min_eq_left h]; omega
    · rw [Nat.min_eq_right h]
  have h2 : py_slice_norm t.length ((t.length : Nat) : Int) = t.length := by
    unfold py_slice_norm
    rw [if_neg (by omega : ¬ (((t.length : Nat) : Int) < 0))]
    simp
  rw [h1, h2, List.take_length]
  rw [take_drop_swap, dropLast_eq_take_len, List.length_drop]
  congr 1
  omega

theorem drop_append_len (P X : List Nat) (k : Nat) :
    (P ++ X).drop (P.length + k) = X.drop k := by
  induction P with
  | nil => simp
  | cons a P ih => simp [Nat.succ_add, ih]

theorem take_append_le (X S : List Nat) (n : Nat) (h : n ≤ X.length) :
    (X ++ S).take n = X.take n := by
  induction X generalizing n with
  | nil =>
    have : n = 0 := by simpa using h
    subst this; simp
  | cons a X ih =>
    cases n with
    | zero => simp
    | succ n => simp [ih n (by simpa using h)]

theorem drop_append_le (X S : List Nat) (n : Nat) (h : n ≤ X.length) :
    (X ++ S).drop n = X.drop n ++ S := by
  induction X generalizing n with
  | nil =>
    have : n = 0 := by simpa using h
    subst this; simp
  | cons a X ih =>
    cases n with
    | zero => simp
    | succ n => simp [ih n (by simpa using h)]

theorem matches_at_append_right (P X sub : List Nat) (k : Nat) :
    matches_at (P ++ X) sub (P.length + k) = matches_at X sub k := by
  unfold matches_at
  rw [drop_append_len]
  simp [List.length_append]

theorem matches_at_append_left (X S sub : List Nat) (k : Nat)
    (h : k + sub.length ≤ X.length) :
    matches_at (X ++ S) sub k = matches_at X sub k := by
  unfold matches_at
  have h1 : k ≤ X.length := by omega
  rw [drop_append_le X S k h1]
  rw [take_append_le (X.drop k) S sub.length (by simp [List.length_drop]; omega)]
  have e1 : decide (k ≤ (X ++ S).length) = true := by
    simp only [decide_eq_true_eq, List.length_append]
    omega
  have e2 : decide (k ≤ X.length) = true := by
    simp only [decide_eq_true_eq]
    omega
  rw [e1, e2]

theorem not_occursAt_beyond (t sub : List Nat)
    (h : ∀ k, k ≤ t.length → ¬ occursAt t sub k) :
    ∀ k, ¬ occursAt t sub k :=
  fun k hk => h k hk.1 hk

/- ### Properties of the strip primitives -/

theorem dropWhile_head_false (p : Nat → Bool) (l : List Nat) (a : Nat)
    (h : (l.dropWhile p).head? = some a) : p a = false := by
  induction l with
  | nil => simp at h
  | cons x l ih =>
    cases hx : p x with
    | true =>
      rw [List.dropWhile_cons, if_pos hx] at h
      exact ih h
    | false =>
      rw [List.dropWhile_cons, if_neg (by simp [hx])] at h
      simp at h
      rw [← h]
      exact hx

theorem takeWhile_all (p : Nat → Bool) (l : List Nat) :
    (l.takeWhile p).all p = true := by
  induction l with
  | nil => rfl
  | cons x l ih =>
    cases hx : p x with
    | true => simp [List.takeWhile_cons, hx, ih]
    | false => simp [List.takeWhile_cons, hx]

theorem dropWhile_eq_stripBy_append (p : Nat → Bool) (l : List Nat) :
    ∃ post, l.dropWhile p = stripBy p l ++ post ∧ post.all p = true := by
  refine ⟨((l.dropWhile p).reverse.takeWhile p).reverse, ?_, ?_⟩
  · calc l.dropWhile p
        = ((l.dropWhile p).reverse).reverse := by rw [List.reverse_reverse]
      _ = ((l.dropWhile p).reverse.takeWhile p ++
            (l.dropWhile p).reverse.dropWhile p).reverse := by
            rw [List.takeWhile_append_dropWhile]
      _ = ((l.dropWhile p).reverse.dropWhile p).reverse ++
            ((l.dropWhile p).reverse.takeWhile p).reverse := by
            rw [List.reverse_append]
      _ = stripBy p l ++ ((l.dropWhile p).reverse.takeWhile p).reverse := rfl
  · rw [List.all_reverse]
    exact takeWhile_all p _

theorem stripBy_decomp (p : Nat → Bool) (l : List Nat) :
    ∃ pre post, l = pre ++ stripBy p l ++ post ∧
      pre.all p = true ∧ post.all p = true := by
  obtain ⟨post, hm, hpost⟩ := dropWhile_eq_stripBy_append p l
  refine ⟨l.takeWhile p, post, ?_, takeWhile_all p l, hpost⟩
  conv_lhs => rw [← List.takeWhile_append_dropWhile (p := p) (l := l)]
  rw [hm, List.append_assoc]

theorem stripBy_head (p : Nat → Bool) (l : List Nat) (a : Nat)
    (h : (stripBy p l).head? = some a) : p a = false := by
  obtain ⟨post, hm, _⟩ := dropWhile_eq_stripBy_append p l
  apply dropWhile_head_false p l a
  rw [hm]
  cases hs : stripBy p l with
  | nil => rw [hs] at h; simp at h
  | cons x s =>
    rw [hs] at h
    simp at h
    simp [h]

theorem stripBy_last (p : Nat → Bool) (l : List Nat) (a : Nat)
    (h : (stripBy p l).getLast? = some a) : p a = false := by
  unfold stripBy at h
  rw [List.getLast?_reverse] at h
  exact dropWhile_head_false p _ a h

/- ### Properties of the atom dictionary -/

theorem getAtom_setAtom_same (m : MP4Tags) (k : List Nat) (v : MP4Item) :
    getAtom (setAtom m k v) k = some v := by
  induction m with
  | nil => simp [setAtom, getAtom]
  | cons kv rest ih =>
    by_cases h : kv.1 = k
    · simp [setAtom, getAtom, h]
    · simp [setAtom, getAtom, h, ih]

theorem getAtom_setAtom_ne (m : MP4Tags) (k k' : List Nat) (v : MP4Item)
    (h : k' ≠ k) : getAtom (setAtom m k v) k' = getAtom m k' := by
  induction m with
  | nil => simp [setAtom, getAtom, Ne.symm h]
  | cons kv rest ih =>
    by_cases hk : kv.1 = k
    · simp [setAtom, getAtom, hk, Ne.symm h]
    · by_cases hk' : kv.1 = k'
      · simp [setAtom, getAtom, hk, hk', h]
      · simp [setAtom, getAtom, hk, hk', ih]

/- ## Claim theorems -/

/-- C7: `extract_value` never raises — the embedding is a total function,
matching the source, whose `try` body cannot throw — and it returns the
sentinel "Unknown" whenever the start marker is absent from the text, or
the end marker is absent at or after the position of the matched start
marker. -/
theorem C7_extract_value_sentinel (t sm em : List Nat) :
    ((∀ k, ¬ occursAt t sm k) → extract_value t sm em = unknownStr) ∧
    (∀ i, occursAt t sm i → (∀ k, k < i → ¬ occursAt t sm k) →
      (∀ j, i ≤ j → ¬ occursAt t em j) →
      extract_value t sm em = unknownStr) := by
  constructor
  · intro h
    have hf : py_find t sm 0 = -1 := by
      have := py_find_eq_neg_one t sm 0 (fun k _ => h k)
      simpa using this
    simp only [extract_value]
    rw [hf]
    simp
  · intro i hi hmin hnone
    have hf : py_find t sm 0 = (i : Int) := by
      have := py_find_eq_coe t sm 0 i hi (Nat.zero_le i) (fun k hk _ => hmin k hk)
      simpa using this
    have he : py_find t em (i : Int) = -1 := py_find_eq_neg_one t em i hnone
    simp only [extract_value]
    rw [hf, he]
    simp

/-- C7 witness: the start marker "zz" is absent from "abc"; in "XaY" the
start marker "a" matches at 1 but the end marker "Q" never occurs. -/
theorem C7_extract_value_sentinel_witness :
    extract_value (lit "abc") (lit "zz") (lit "b") = unknownStr ∧
    extract_value (lit "XaY") (lit "a") (lit "Q") = unknownStr := by
  constructor
  · exact (C7_extract_value_sentinel (lit "abc") (lit "zz") (lit "b")).1
      (not_occursAt_beyond _ _ (by decide))
  · exact (C7_extract_value_sentinel (lit "XaY") (lit "a") (lit "Q")).2 1
      (by decide) (by decide)
      (fun j _ => not_occursAt_beyond _ _ (by decide) j)

/-- C3 counterexample: in "XaYa" with start marker "Xa" and end marker "a"
the match ends at 2 and the first end-marker occurrence at or after that
end is at 3, so the claim predicts the substring "Y"; the code searches
from the START of the match, finds the overlapping occurrence at 1, and
returns the empty string. -/
theorem C3_counterexample :
    occursAt (lit "XaYa") (lit "Xa") 0 ∧
    occursAt (lit "XaYa") (lit "a") 3 ∧
    (∀ k, k < 3 → 2 ≤ k → ¬ occursAt (lit "XaYa") (lit "a") k) ∧
    ((lit "XaYa").drop 2).take 1 = lit "Y" ∧
    extract_value (lit "XaYa") (lit "Xa") (lit "a") = [] ∧
    ([] : List Nat) ≠ lit "Y" := by
  decide

/-- C3 amended: `extract_value` searches for the end marker from the START
of the start-marker match (src/app.py line 19 passes `start_index`), not
from its end.  Whenever the first end-marker occurrence at or after the
start of the match happens to lie at or after its end, the result is
exactly the substring strictly between the end of the match and that
occurrence. -/
theorem C3_extract_value_between (t sm em : List Nat) (i j : Nat)
    (hi : occursAt t sm i) (himin : ∀ k, k < i → ¬ occursAt t sm k)
    (hj : occursAt t em j) (hij : i ≤ j)
    (hjmin : ∀ k, k < j → i ≤ k → ¬ occursAt t em k)
    (_hend : i + sm.length ≤ j) :
    extract_value t sm em =
      (t.drop (i + sm.length)).take (j - (i + sm.length)) := by
  have hf : py_find t sm 0 = (i : Int) := by
    have := py_find_eq_coe t sm 0 i hi (Nat.zero_le i) (fun k hk _ => himin k hk)
    simpa using this
  have he : py_find t em (i : Int) = (j : Int) := py_find_eq_coe t em i j hj hij hjmin
  simp only [extract_value]
  rw [hf, he]
  rw [if_pos (by constructor <;> omega : ((i : Int) ≠ -1 ∧ (j : Int) ≠ -1))]
  have hcast : (i : Int) + (sm.length : Int) = ((i + sm.length : Nat) : Int) := by
    push_cast
    ring
  rw [hcast, py_slice_coe, take_drop_swap]

/-- C3 witness: on "k:v,x" with markers ":" and "," the extracted
substring is "v". -/
theorem C3_extract_value_between_witness :
    extract_value (lit "k:v,x") (lit ":") (lit ",") = lit "v" := by
  have h := C3_extract_value_between (lit "k:v,x") (lit ":") (lit ",") 1 3
    (by decide) (by decide) (by decide) (by decide) (by decide) (by decide)
  exact h.trans (by decide)

/-- C10: when the anchor is present but no comma occurs at or after it,
`end_index` is the failed find's -1 and the slice `text[start_index:-1]`
silently excludes the final character of the text: the candidate span
equals the slice running to the end of the string with its last character
removed. -/
theorem C10_span_drops_last (t : List Nat) (mi : Nat)
    (_hanchor : py_find t anchor_tok 0 = (mi : Int))
    (hcomma : py_find t (lit ",") (mi : Int) = -1) :
    track_url_span t (mi : Int) =
      (py_slice t (py_rfind t (lit ":") (mi : Int) + 1)
        (t.length : Int)).dropLast := by
  unfold track_url_span
  rw [hcomma, py_slice_neg_one]

/-- C10 witness: in "a:bmime_type=audio_mp4x" the anchor sits at 3, the
text has no comma, and the candidate span "bmime_type=audio_mp4" excludes
the final "x". -/
theorem C10_span_drops_last_witness :
    track_url_span (lit "a:bmime_type=audio_mp4x") ((3 : Nat) : Int) =
      lit "bmime_type=audio_mp4" := by
  have h := C10_span_drops_last (lit "a:bmime_type=audio_mp4x") 3
    (by decide) (by decide)
  exact h.trans (by decide)

/-- C8: `extract_track_url` never raises — the embedding is total, the
source's handler catches the only throwing call — and it returns "Unknown"
both when the anchor `mime_type=audio_mp4` is absent from the text and
when JSON-decoding of the trimmed candidate span fails. -/
theorem C8_track_url_sentinel (t : List Nat) :
    ((∀ k, ¬ occursAt t anchor_tok k) → extract_track_url t = unknownStr) ∧
    (∀ mi : Nat, py_find t anchor_tok 0 = (mi : Int) →
      jsonDec (strip_quotes (strip_ws (track_url_span t (mi : Int)))) = none →
      extract_track_url t = unknownStr) := by
  constructor
  · intro h
    have hf : py_find t anchor_tok 0 = -1 := by
      have := py_find_eq_neg_one t anchor_tok 0 (fun k _ => h k)
      simpa using this
    simp only [extract_track_url]
    rw [hf]
    simp
  · intro mi hf hdec
    simp only [extract_track_url]
    rw [hf]
    rw [if_neg (by omega : ¬ ((mi : Int) = -1))]
    rw [hdec]

/-- C8 witness: a text without the anchor, and a text whose candidate span
carries the invalid escape sequence backslash-q. -/
theorem C8_track_url_sentinel_witness :
    extract_track_url (lit "no anchor here") = unknownStr ∧
    extract_track_url (lit "a:\\qmime_type=audio_mp4,b") = unknownStr := by
  constructor
  · exact (C8_track_url_sentinel (lit "no anchor here")).1
      (not_occursAt_beyond _ _ (by decide))
  · exact (C8_track_url_sentinel (lit "a:\\qmime_type=audio_mp4,b")).2 4
      (by decide) (by decide)

/-- C9 counterexample: `.strip().strip('"')` at src/app.py line 39 removes
EVERY enclosing quote, not exactly one pair.  On the candidate span of
`a:""//q?mime_type=audio_mp4"",` the one-pair trim described by the claim
keeps the inner quotes (and the JSON decode of that value would fail),
while the code strips them all and the function returns the URL. -/
theorem C9_counterexample :
    strip_quotes (strip_ws (lit "\"\"//q?mime_type=audio_mp4\"\"")) =
      lit "//q?mime_type=audio_mp4" ∧
    trim_one_pair (strip_ws (lit "\"\"//q?mime_type=audio_mp4\"\"")) =
      lit "\"//q?mime_type=audio_mp4\"" ∧
    lit "//q?mime_type=audio_mp4" ≠ lit "\"//q?mime_type=audio_mp4\"" ∧
    extract_track_url (lit "a:\"\"//q?mime_type=audio_mp4\"\",") =
      lit "https://q?mime_type=audio_mp4" := by
  decide

/-- C9 amended: before JSON-decoding, `extract_track_url` trims surrounding
whitespace and then ALL enclosing double-quote characters from both ends:
the trimmed span never starts or ends with a quote, and it arises from the
whitespace-stripped span by cutting a run of quotes (possibly longer than
one) off each end. -/
theorem C9_trim_all_quotes (l : List Nat) :
    (strip_quotes (strip_ws l)).head? ≠ some 0x22 ∧
    (strip_quotes (strip_ws l)).getLast? ≠ some 0x22 ∧
    ∃ pre post, strip_ws l = pre ++ strip_quotes (strip_ws l) ++ post ∧
      pre.all (fun c => c == 0x22) = true ∧
      post.all (fun c => c == 0x22) = true := by
  unfold strip_quotes
  refine ⟨?_, ?_, stripBy_decomp (fun c => c == 0x22) (strip_ws l)⟩
  · intro h
    have := stripBy_head (fun c => c == 0x22) (strip_ws l) 0x22 h
    simp at this
  · intro h
    have := stripBy_last (fun c => c == 0x22) (strip_ws l) 0x22 h
    simp at this

/-- C9 amended, witness: on the doubly quoted span both quotes of each end
are removed. -/
theorem C9_trim_all_quotes_witness :
    (strip_quotes (strip_ws (lit "\"\"x\"\""))).head? ≠ some 0x22 ∧
    (strip_quotes (strip_ws (lit "\"\"x\"\""))).getLast? ≠ some 0x22 := by
  exact ⟨(C9_trim_all_quotes (lit "\"\"x\"\"")).1,
    (C9_trim_all_quotes (lit "\"\"x\"\"")).2.1⟩

/-- C1 counterexample: on a page text whose cover-URL span contains the
invalid escape backslash-q, the track and artist names resolve, yet
`extract_and_log_data` returns the empty record (Python `{}` from the
handler at src/app.py line 69) instead of a four-field descriptor carrying
the resolved names and a sentinel cover URL. -/
theorem C1_counterexample :
    extract_value c1_page_text tn_start field_end = lit "Song" ∧
    extract_value c1_page_text an_start field_end = lit "Artist" ∧
    jsonDec (extract_value c1_page_text cu_start field_end) = none ∧
    extract_and_log_data c1_page_text = none := by
  decide

/-- C1 amended: `extract_and_log_data` never raises (the embedding is
total), but the cover-URL JSON decode at src/app.py line 60 is NOT guarded
per field: when it fails the function returns the empty record, discarding
the already-resolved fields.  When it succeeds, the returned record carries
the four independently extracted fields (with the extractors' own
"Unknown" sentinels where their markers were absent). -/
theorem C1_extract_and_log_data_shape (t : List Nat) :
    (jsonDec (extract_value t cu_start field_end) = none →
      extract_and_log_data t = none) ∧
    (∀ cu2, jsonDec (extract_value t cu_start field_end) = some cu2 →
      extract_and_log_data t = some
        ⟨extract_value t tn_start field_end,
          extract_value t an_start field_end,
          cu2, extract_track_url t⟩) := by
  constructor
  · intro h
    simp only [extract_and_log_data]
    rw [h]
  · intro cu2 h
    simp only [extract_and_log_data]
    rw [h]

/-- C1 amended, witness: the empty record on the bad cover span, and the
full record on a text where every step succeeds. -/
theorem C1_extract_and_log_data_shape_witness :
    extract_and_log_data c1_page_text = none ∧
    extract_and_log_data c1_good_text =
      some ⟨lit "Song", lit "Artist", lit "http", unknownStr⟩ := by
  constructor
  · exact (C1_extract_and_log_data_shape c1_page_text).1 (by decide)
  · exact ((C1_extract_and_log_data_shape c1_good_text).2 (lit "http")
      (by decide)).trans (by decide)

/-- C2: the temporary audio file leaks on the exception path.  With a
successful 200/audio-mp4 audio download and a cover GET that raises — as
`requests.get("Unknown")` does when the cover URL is the sentinel — the
broad handler at src/app.py line 140 returns `(None, None)` without
reaching any `os.unlink`: the temporary file was created and never
deleted, contradicting delete-on-all-exit-paths. -/
theorem C2_temp_file_leak :
    (download_and_set_metadata sample_track_data env_cover_raises).tempCreated
      = true ∧
    (download_and_set_metadata sample_track_data env_cover_raises).tempDeleted
      = false := by
  decide

/-- C5 counterexample: a 206 Partial Content response — a 2xx status —
with Content-Type audio/mp4 is rejected: src/app.py line 91 compares the
status against exactly 200, so the download fails (no temporary file, no
result) although the claim accepts any 2xx. -/
theorem C5_counterexample :
    (200 ≤ 206 ∧ 206 < 300) ∧
    ct_ok (lit "audio/mp4") = true ∧
    (download_and_set_metadata sample_track_data env_status_206).tempCreated
      = false ∧
    (download_and_set_metadata sample_track_data env_status_206).result
      = none := by
  decide

/-- C5 amended: the audio download is accepted — execution reaches the
temporary-file stage — iff the response status is EXACTLY 200 and the
Content-Type header contains audio/mp4 or video/mp4.  Any other status,
2xx included, and any other content type fail before tagging. -/
theorem C5_audio_accept_iff (td : TrackData) (env : DlEnv) (r : HttpResponse)
    (h : env.audio = Call.ok r) :
    (download_and_set_metadata td env).tempCreated = true ↔
      (r.status = 200 ∧ ct_ok (r.contentType.getD []) = true) := by
  obtain ⟨a, cov, par, sav⟩ := env
  simp only at h
  subst h
  unfold download_and_set_metadata
  dsimp only
  by_cases hs : r.status = 200
  · rw [if_neg (by simp [hs])]
    by_cases hct : ct_ok (r.contentType.getD []) = true
    · rw [if_neg (by simp [hct])]
      constructor
      · intro _
        exact ⟨hs, hct⟩
      · intro _
        cases cov with
        | exn => rfl
        | ok c =>
          dsimp only
          by_cases hc : c.status ≠ 200
          · rw [if_pos hc]
          · rw [if_neg hc]
            cases par with
            | exn => rfl
            | ok tags =>
              cases sav with
              | exn => rfl
              | ok u => rfl
    · have hctf : ct_ok (r.contentType.getD []) = false := by
        cases hx : ct_ok (r.contentType.getD []) with
        | false => rfl
        | true => exact absurd hx hct
      rw [if_pos hctf]
      simp [hctf]
  · rw [if_pos hs]
    simp [hs]

/-- C5 amended, witness: a 200 response with Content-Type video/mp4 is
accepted and the temporary file gets created. -/
theorem C5_audio_accept_iff_witness :
    (download_and_set_metadata sample_track_data env_status_200).tempCreated
      = true := by
  exact (C5_audio_accept_iff sample_track_data env_status_200
    ⟨200, some (lit "video/mp4"), lit "AUDIO"⟩ rfl).mpr (by decide)

/-- C6: round-trip at atom granularity.  Tagging any container with title
T, artist A and JPEG cover bytes, then re-reading the atom dictionary —
which save and re-parse preserve in the model, per the specification's
"contains correct tag atoms when re-parsed" — yields exactly the three
written atoms, and every other atom is unchanged. -/
theorem C6_tag_roundtrip (tags : MP4Tags) (T A jpeg : List Nat) :
    getAtom (apply_metadata tags T A jpeg) atom_nam = some (MP4Item.strs [T]) ∧
    getAtom (apply_metadata tags T A jpeg) atom_art = some (MP4Item.strs [A]) ∧
    getAtom (apply_metadata tags T A jpeg) atom_covr =
      some (MP4Item.covers [(jpeg, format_jpeg)]) ∧
    ∀ k, k ≠ atom_nam → k ≠ atom_art → k ≠ atom_covr →
      getAtom (apply_metadata tags T A jpeg) k = getAtom tags k := by
  unfold apply_metadata
  refine ⟨?_, ?_, ?_, ?_⟩
  · rw [getAtom_setAtom_ne _ _ _ _ (by decide),
      getAtom_setAtom_ne _ _ _ _ (by decide), getAtom_setAtom_same]
  · rw [getAtom_setAtom_ne _ _ _ _ (by decide), getAtom_setAtom_same]
  · rw [getAtom_setAtom_same]
  · intro k h1 h2 h3
    rw [getAtom_setAtom_ne _ _ _ _ h3, getAtom_setAtom_ne _ _ _ _ h2,
      getAtom_setAtom_ne _ _ _ _ h1]

/-- C6 witness: tagging a container holding an unrelated atom writes the
three tag atoms and leaves the other atom as it was. -/
theorem C6_tag_roundtrip_witness :
    getAtom (apply_metadata sample_tags (lit "T") (lit "A") [0xFF, 0xD8])
      atom_nam = some (MP4Item.strs [lit "T"]) ∧
    getAtom (apply_metadata sample_tags (lit "T") (lit "A") [0xFF, 0xD8])
      (lit "trkn") = some (MP4Item.blob (lit "01")) := by
  have h := C6_tag_roundtrip sample_tags (lit "T") (lit "A") [0xFF, 0xD8]
  exact ⟨h.1, (h.2.2.2 (lit "trkn") (by decide) (by decide) (by decide)).trans
    (by decide)⟩

/-- C4 counterexample: on a text of exactly the claimed shape — the URL
between a colon and a comma with the anchor occurring LATER — the backward
scan stops at the colon inside the URL fragment and the forward scan only
looks for a comma AT OR AFTER the anchor, so the candidate span swallows
the URL's closing quote and the anchor; the JSON decode fails and the
function returns "Unknown", not the claimed URL. -/
theorem C4_counterexample :
    extract_track_url c4_claim_text = unknownStr ∧
    unknownStr ≠ lit "https://example.cdn/a.mp4" := by
  decide

/-- C4 amended: the anchor is a query parameter INSIDE the quoted URL.
For every prefix P and suffix S such that the displayed occurrence of the
anchor in `P ++ c4_core ++ S` is the first one in the text,
`extract_track_url` slices from the colon delimiting the URL value to the
comma after its closing quote, strips the quotes, and returns the
protocol-relative URL prefixed with `https:`. -/
theorem C4_track_url_resolved (P S : List Nat)
    (hfirst : ∀ k, k < P.length + 23 →
      ¬ occursAt (P ++ (c4_core ++ S)) anchor_tok k) :
    extract_track_url (P ++ (c4_core ++ S)) =
      lit "https://example.cdn/a.mp4?mime_type=audio_mp4" := by
  have hc : c4_core.length = 44 := rfl
  have hlen : (P ++ (c4_core ++ S)).length = P.length + (44 + S.length) := by
    simp [List.length_append, hc]
  have key : ∀ (sub : List Nat) (k : Nat), k + sub.length ≤ 44 →
      matches_at (P ++ (c4_core ++ S)) sub (P.length + k)
        = matches_at c4_core sub k := by
    intro sub k hk
    rw [matches_at_append_right]
    exact matches_at_append_left c4_core S sub k (by rw [hc]; exact hk)
  have hanch : occursAt (P ++ (c4_core ++ S)) anchor_tok (P.length + 23) := by
    rw [← matches_at_iff, key anchor_tok 23 (by decide)]
    decide
  have hfind : py_find (P ++ (c4_core ++ S)) anchor_tok ((0 : Nat) : Int)
      = ((P.length + 23 : Nat) : Int) :=
    py_find_eq_coe _ _ 0 (P.length + 23) hanch (Nat.zero_le _)
      (fun k hk _ => hfirst k hk)
  have hfind0 : py_find (P ++ (c4_core ++ S)) anchor_tok 0
      = ((P.length + 23 : Nat) : Int) := by
    simpa using hfind
  have hcolon : occursAt (P ++ (c4_core ++ S)) (lit ":") (P.length + 1) := by
    rw [← matches_at_iff, key (lit ":") 1 (by decide)]
    decide
  have hcolwin : ∀ k', k' < 23 → 2 ≤ k' →
      matches_at c4_core (lit ":") k' = false := by
    decide
  have hrfind : py_rfind (P ++ (c4_core ++ S)) (lit ":")
      ((P.length + 23 : Nat) : Int) = ((P.length + 1 : Nat) : Int) := by
    apply py_rfind_eq_coe
    · rw [hlen]; omega
    · exact hcolon
    · have h1 : (lit ":").length = 1 := rfl
      omega
    · intro k hk1 hk2 hocc
      have h1 : (lit ":").length = 1 := rfl
      obtain ⟨k', rfl⟩ : ∃ k', k = P.length + k' := ⟨k - P.length, by omega⟩
      have hm : matches_at (P ++ (c4_core ++ S)) (lit ":") (P.length + k')
          = true := (matches_at_iff _ _ _).mpr hocc
      rw [key (lit ":") k' (by omega)] at hm
      rw [hcolwin k' (by omega) (by omega)] at hm
      exact Bool.noConfusion hm
  have hcomma : occursAt (P ++ (c4_core ++ S)) (lit ",") (P.length + 43) := by
    rw [← matches_at_iff, key (lit ",") 43 (by decide)]
    decide
  have hcomwin : ∀ k', k' < 43 → 23 ≤ k' →
      matches_at c4_core (lit ",") k' = false := by
    decide
  have hcfind : py_find (P ++ (c4_core ++ S)) (lit ",")
      ((P.length + 23 : Nat) : Int) = ((P.length + 43 : Nat) : Int) := by
    apply py_find_eq_coe
    · exact hcomma
    · omega
    · intro k hk hk2 hocc
      have h1 : (lit ",").length = 1 := rfl
      obtain ⟨k', rfl⟩ : ∃ k', k = P.length + k' := ⟨k - P.length, by omega⟩
      have hm : matches_at (P ++ (c4_core ++ S)) (lit ",") (P.length + k')
          = true := (matches_at_iff _ _ _).mpr hocc
      rw [key (lit ",") k' (by omega)] at hm
      rw [hcomwin k' (by omega) (by omega)] at hm
      exact Bool.noConfusion hm
  have hspan : track_url_span (P ++ (c4_core ++ S))
      ((P.length + 23 : Nat) : Int)
      = lit "\"//example.cdn/a.mp4?mime_type=audio_mp4\"" := by
    unfold track_url_span
    rw [hrfind, hcfind]
    have hplus : ((P.length + 1 : Nat) : Int) + 1
        = ((P.length + 2 : Nat) : Int) := by
      push_cast
      ring
    rw [hplus, py_slice_coe, take_drop_swap]
    have harith : (P.length + 43) - (P.length + 2) = 41 := by omega
    rw [harith]
    have hdrop : (P ++ (c4_core ++ S)).drop (P.length + 2)
        = c4_core.drop 2 ++ S := by
      rw [drop_append_len, drop_append_le c4_core S 2 (by rw [hc]; omega)]
    rw [hdrop]
    rw [take_append_le (c4_core.drop 2) S 41 (by rw [List.length_drop, hc]; omega)]
    decide
  simp only [extract_track_url]
  rw [hfind0]
  rw [if_neg (by omega : ¬ (((P.length + 23 : Nat) : Int) = -1))]
  rw [hspan]
  decide

/-- C4 amended, witness: a concrete prefix (which itself contains a colon)
and suffix around the core. -/
theorem C4_track_url_resolved_witness :
    extract_track_url (lit "A:" ++ (c4_core ++ lit "B")) =
      lit "https://example.cdn/a.mp4?mime_type=audio_mp4" := by
  exact C4_track_url_resolved (lit "A:") (lit "B") (by decide)
